import Mathlib

/-!
Shallow embedding of the HSV vegetation-segmentation pipeline in `app.py`.

Pixels are triples of 8-bit channel values (modelled as `Nat`); an image is a
row-major list of pixels together with its `rows`/`cols` dimensions.  The
OpenCV BGR→HSV conversion (`cv2.cvtColor`) is external library code, so it is
modelled as an arbitrary per-pixel function parameter `toHSV`; every stage
that the repository itself implements (`cv2.inRange` thresholding semantics,
`cv2.bitwise_and` with a mask, the pixel count `np.sum(mask > 0) / 255`, the
percentage computed in `main_app`, and the resize arithmetic of
`load_color_image`) is translated directly from the source.  Python floats
are modelled as exact rationals; where the value of a float computation
matters — the resize scale arithmetic — each floating operation is modelled
faithfully as correctly rounded binary64 (`fl` below).
-/

namespace VegApp

/-- A pixel: three unsigned 8-bit channel values (B,G,R in native order, or
H,S,V after conversion). -/
abbrev Pixel := Nat × Nat × Nat

/-- An in-memory raster image: dimensions plus a row-major pixel buffer. -/
structure Image where
  rows : Nat
  cols : Nat
  data : List Pixel
  deriving DecidableEq

/-- Per-pixel inclusive range test of `cv2.inRange`: all three channels must
lie between the corresponding lower and upper bounds. -/
def inRangePix (h_min h_max s_min s_max v_min v_max : Nat) (p : Pixel) : Bool :=
  decide (h_min ≤ p.1) && decide (p.1 ≤ h_max) &&
  decide (s_min ≤ p.2.1) && decide (p.2.1 ≤ s_max) &&
  decide (v_min ≤ p.2.2) && decide (p.2.2 ≤ v_max)

/-- Embedding of `cv2.inRange(img_hsv, lower, upper)`: a single-channel mask whose element
is 255 where the pixel is inside the inclusive box, 0 elsewhere. -/
def inRange (hsv : List Pixel) (h_min h_max s_min s_max v_min v_max : Nat) : List Nat :=
  hsv.map (fun p => if inRangePix h_min h_max s_min s_max v_min v_max p then 255 else 0)

/-- Embedding of `cv2.bitwise_and(img, img, mask=mask)`: keep the source pixel where the
mask is nonzero, produce the zero pixel elsewhere. -/
def bitwise_and_mask (img : List Pixel) (mask : List Nat) : List Pixel :=
  List.zipWith (fun p m => if m = 0 then ((0, 0, 0) : Pixel) else p) img mask

/-- Embedding of `np.sum(mask > 0)`: the number of strictly positive mask elements. -/
def sum_mask_pos (mask : List Nat) : Nat :=
  List.countP (fun m => decide (0 < m)) mask

/-- The spec's `selectedPixelCount`: the number of mask elements equal to 255. -/
def count255 (mask : List Nat) : Nat :=
  List.count 255 mask

/-- Embedding of `segment_hsv` from
`app.py`: convert to HSV, threshold with `cv2.inRange`, composite with
`cv2.bitwise_and`, and return `(mask, result, pixel_count)` where
`pixel_count = np.sum(mask > 0) / 255` (a Python float, modelled exactly). -/
def segment_hsv (toHSV : Pixel → Pixel) (img : Image)
    (h_min h_max s_min s_max v_min v_max : Nat) : List Nat × Image × ℚ :=
  let img_hsv := img.data.map toHSV
  let mask := inRange img_hsv h_min h_max s_min s_max v_min v_max
  let result : Image := ⟨img.rows, img.cols, bitwise_and_mask img.data mask⟩
  let pixel_count : ℚ := (sum_mask_pos mask : ℚ) / 255
  (mask, result, pixel_count)

/-- Embedding of `main_app` lines 154-155: `total_pixels = rows * cols` and
`percentage = (pixel_count / total_pixels) * 100`. -/
def percentage (pixel_count : ℚ) (rows cols : Nat) : ℚ :=
  pixel_count / ((rows * cols : Nat) : ℚ) * 100

/-- Round a rational to the nearest integer, ties to even — the rounding of
IEEE-754 binary64 arithmetic. -/
def rne (x : ℚ) : ℤ :=
  if x - ⌊x⌋ < 1 / 2 then ⌊x⌋
  else if 1 / 2 < x - ⌊x⌋ then ⌊x⌋ + 1
  else if Even ⌊x⌋ then ⌊x⌋ else ⌊x⌋ + 1

/-- The IEEE-754 double (binary64) value nearest a rational: round to nearest,
ties to even, at 53 significand bits.  Exact over the normal range that image
dimensions inhabit (no overflow or subnormals arise there). -/
def fl (x : ℚ) : ℚ :=
  if x = 0 then 0
  else rne (x / 2 ^ (Int.log 2 |x| - 52)) * 2 ^ (Int.log 2 |x| - 52)

/-- Embedding of `new_size = (int(cols * scale), int(rows * scale))` with
`scale = 800 / max(rows, cols)`, computed as Python computes it: the division
and each product are double-precision operations, modelled by `fl`; Python
`int` truncates the resulting double, which on these nonnegative values is the
floor.  The conversion of an integer operand to double is exact below 2^53,
far beyond any image dimension, so it introduces no further rounding. -/
def new_size (rows cols : Nat) : Nat × Nat :=
  (Int.toNat ⌊fl ((cols : ℚ) * fl (800 / ((max rows cols : Nat) : ℚ)))⌋,
   Int.toNat ⌊fl ((rows : ℚ) * fl (800 / ((max rows cols : Nat) : ℚ)))⌋)

/-- Dimensions of the image returned by `load_color_image`: resized through
`new_size` when `rows > 800 or cols > 800`, unchanged otherwise.  A
`(width, height)` pair passed to `cv2.resize` yields an image with that many
columns and rows respectively. -/
def resize_dims (rows cols : Nat) : Nat × Nat :=
  if 800 < rows ∨ 800 < cols then
    ((new_size rows cols).2, (new_size rows cols).1)
  else (rows, cols)

/-- Embedding of `load_color_image(uploaded_file)` from `app.py`.  The fallible external
steps are parameters: `read` models `uploaded_file.read()` (which may raise),
`imdecode` models `cv2.imdecode` (which may raise, or return `None` on an
unparseable buffer), and `resample` models `cv2.resize` at the computed
`new_size` (which may raise).  A `None` upload returns `None` immediately;
the `try` block turns every raised exception into `None`; a `None` decode
returns `None`; otherwise the decoded image is resized exactly when
`rows > 800 or cols > 800`. -/
def load_color_image {ε : Type} (uploaded_file : Option Unit)
    (read : Except ε (List Nat))
    (imdecode : List Nat → Except ε (Option Image))
    (resample : Image → Nat × Nat → Except ε Image) : Option Image :=
  match uploaded_file with
  | none => none
  | some _ =>
    match read with
    | Except.error _ => none
    | Except.ok file_bytes =>
      match imdecode file_bytes with
      | Except.error _ => none
      | Except.ok none => none
      | Except.ok (some img_color) =>
        if 800 < img_color.rows ∨ 800 < img_color.cols then
          match resample img_color (new_size img_color.rows img_color.cols) with
          | Except.error _ => none
          | Except.ok resized => some resized
        else some img_color

/-- The computational core of `main_app`: load the image, return with no
result when loading failed, otherwise run `segment_hsv` and compute the
percentage of lines 154-155. -/
def main_app_result {ε : Type} (uploaded_file : Option Unit)
    (read : Except ε (List Nat))
    (imdecode : List Nat → Except ε (Option Image))
    (resample : Image → Nat × Nat → Except ε Image)
    (toHSV : Pixel → Pixel)
    (h_min h_max s_min s_max v_min v_max : Nat) :
    Option (List Nat × Image × ℚ × ℚ) :=
  match load_color_image uploaded_file read imdecode resample with
  | none => none
  | some img_bgr =>
    let r := segment_hsv toHSV img_bgr h_min h_max s_min s_max v_min v_max
    some (r.1, r.2.1, r.2.2, percentage r.2.2 img_bgr.rows img_bgr.cols)

/-- Concrete stand-in for the external BGR→HSV conversion, used to evaluate
the pipeline on the spec's 2×2 scenario: the four test pixels map to the four
HSV triples of the scenario. -/
def toHSVtest : Pixel → Pixel := fun p =>
  if p = (0, 0, 0) then (60, 200, 200)
  else if p = (1, 1, 1) then (10, 200, 200)
  else if p = (2, 2, 2) then (60, 10, 200)
  else (60, 200, 10)

/-- The 2×2 test image of the spec's concrete scenario: under `toHSVtest` its
pixels convert to HSV (60,200,200), (10,200,200), (60,10,200), (60,200,10)
in row-major order. -/
def imgC3 : Image := ⟨2, 2, [(0, 0, 0), (1, 1, 1), (2, 2, 2), (3, 3, 3)]⟩

/-- A 1×1 test image whose single pixel converts (under `toHSVtest`) to HSV
(60,200,200), inside the default vegetation range. -/
def imgC1 : Image := ⟨1, 1, [(0, 0, 0)]⟩

/-! ### Helper lemmas -/

lemma inRangePix_iff (h_min h_max s_min s_max v_min v_max : Nat) (p : Pixel) :
    inRangePix h_min h_max s_min s_max v_min v_max p = true ↔
      (h_min ≤ p.1 ∧ p.1 ≤ h_max ∧ s_min ≤ p.2.1 ∧ p.2.1 ≤ s_max ∧
       v_min ≤ p.2.2 ∧ p.2.2 ≤ v_max) := by
  simp only [inRangePix, Bool.and_eq_true, decide_eq_true_eq]
  tauto

lemma count255_inRange (hsv : List Pixel) (h_min h_max s_min s_max v_min v_max : Nat) :
    count255 (inRange hsv h_min h_max s_min s_max v_min v_max) =
      hsv.countP (inRangePix h_min h_max s_min s_max v_min v_max) := by
  unfold count255 inRange
  rw [List.count_eq_countP, List.countP_map]
  apply List.countP_congr
  intro p _
  by_cases hc : inRangePix h_min h_max s_min s_max v_min v_max p <;> simp [hc]

lemma sum_mask_pos_inRange (hsv : List Pixel) (h_min h_max s_min s_max v_min v_max : Nat) :
    sum_mask_pos (inRange hsv h_min h_max s_min s_max v_min v_max) =
      hsv.countP (inRangePix h_min h_max s_min s_max v_min v_max) := by
  unfold sum_mask_pos inRange
  rw [List.countP_map]
  apply List.countP_congr
  intro p _
  by_cases hc : inRangePix h_min h_max s_min s_max v_min v_max p <;> simp [hc]

/-! ### Claim theorems -/

/-- C4: in the mask produced by the inclusive range test, an element is 255
exactly when the pixel's hue, saturation and value each lie inside the
corresponding inclusive bounds (a conjunction of linear, non-circular range
checks); consequently, whenever any channel's lower bound exceeds its upper
bound, every mask element is 0. -/
theorem inRange_mask_iff (hsv : List Pixel) (h_min h_max s_min s_max v_min v_max : Nat) :
    (∀ i : Nat, ∀ p : Pixel, hsv[i]? = some p →
      ((inRange hsv h_min h_max s_min s_max v_min v_max)[i]? = some 255 ↔
        (h_min ≤ p.1 ∧ p.1 ≤ h_max ∧ s_min ≤ p.2.1 ∧ p.2.1 ≤ s_max ∧
         v_min ≤ p.2.2 ∧ p.2.2 ≤ v_max))) ∧
    (h_max < h_min → ∀ m ∈ inRange hsv h_min h_max s_min s_max v_min v_max, m = 0) ∧
    (s_max < s_min → ∀ m ∈ inRange hsv h_min h_max s_min s_max v_min v_max, m = 0) ∧
    (v_max < v_min → ∀ m ∈ inRange hsv h_min h_max s_min s_max v_min v_max, m = 0) := by
  refine ⟨?_, ?_, ?_, ?_⟩
  · intro i p hp
    rw [← inRangePix_iff h_min h_max s_min s_max v_min v_max p]
    simp only [inRange, List.getElem?_map, hp, Option.map_some']
    by_cases hc : inRangePix h_min h_max s_min s_max v_min v_max p <;> simp [hc]
  all_goals
    intro hlt m hm
    obtain ⟨p, _, rfl⟩ := List.mem_map.mp hm
    by_cases hc : inRangePix h_min h_max s_min s_max v_min v_max p
    · rw [inRangePix_iff] at hc
      omega
    · simp [hc]

/-- C4 witness: for the one-pixel HSV image [(60,200,200)] the mask element
is 255 under the default range (the conjunction holds), and with the hue
bounds inverted (h_min = 85 > h_max = 30) every mask element is 0. -/
theorem inRange_mask_iff_witness :
    (inRange [((60, 200, 200) : Pixel)] 30 85 50 255 50 255)[0]? = some 255 ∧
    (∀ m ∈ inRange [((60, 200, 200) : Pixel)] 85 30 50 255 50 255, m = 0) :=
  ⟨((inRange_mask_iff [((60, 200, 200) : Pixel)] 30 85 50 255 50 255).1 0
      (60, 200, 200) rfl).mpr (by decide),
   (inRange_mask_iff [((60, 200, 200) : Pixel)] 85 30 50 255 50 255).2.1 (by decide)⟩

/-- C1: evaluation of the pixel-count bug.  On a 1×1 image whose single
pixel is selected, the mask has exactly one element equal to 255, yet the
`pixel_count` returned by `segment_hsv` is `np.sum(mask > 0) / 255 = 1/255`,
not 1, and the reported percentage is 20/51 (≈ 0.39), not the claimed
`1 / (1*1) * 100 = 100`: `np.sum(mask > 0)` already counts pixels, so the
further division by 255 contradicts the code's own comment that it yields
the number of detected pixels. -/
theorem segment_hsv_pixel_count_bug :
    count255 (segment_hsv toHSVtest imgC1 30 85 50 255 50 255).1 = 1 ∧
    (segment_hsv toHSVtest imgC1 30 85 50 255 50 255).2.2 = 1 / 255 ∧
    (segment_hsv toHSVtest imgC1 30 85 50 255 50 255).2.2 ≠ 1 ∧
    percentage (segment_hsv toHSVtest imgC1 30 85 50 255 50 255).2.2 1 1 = 20 / 51 ∧
    percentage (segment_hsv toHSVtest imgC1 30 85 50 255 50 255).2.2 1 1 ≠ 100 := by
  refine ⟨by decide, ?_, ?_, ?_, ?_⟩ <;>
    simp [percentage, segment_hsv, inRange, inRangePix, sum_mask_pos, imgC1, toHSVtest] <;>
    norm_num

/-- C3: evaluation of the spec's concrete 2×2 scenario.  The mask is
[255, 0, 0, 0] in row-major order as claimed, and exactly one mask element
is 255; but `segment_hsv` returns `pixel_count = 1/255`, not the claimed
`selectedPixelCount = 1`, and the percentage of `main_app` is 5/51 (≈ 0.098),
not the claimed 25.0 — the same factor-255 slip as in C1. -/
theorem segment_hsv_concrete_2x2 :
    (segment_hsv toHSVtest imgC3 30 85 50 255 50 255).1 = [255, 0, 0, 0] ∧
    count255 (segment_hsv toHSVtest imgC3 30 85 50 255 50 255).1 = 1 ∧
    (segment_hsv toHSVtest imgC3 30 85 50 255 50 255).2.2 = 1 / 255 ∧
    (segment_hsv toHSVtest imgC3 30 85 50 255 50 255).2.2 ≠ 1 ∧
    percentage (segment_hsv toHSVtest imgC3 30 85 50 255 50 255).2.2 2 2 = 5 / 51 ∧
    percentage (segment_hsv toHSVtest imgC3 30 85 50 255 50 255).2.2 2 2 ≠ 25 := by
  refine ⟨by decide, by decide, ?_, ?_, ?_, ?_⟩ <;>
    simp [percentage, segment_hsv, inRange, inRangePix, sum_mask_pos, imgC3, toHSVtest] <;>
    norm_num

/-- C5: compositing a color image with a mask keeps the source pixel,
channel for channel, wherever the mask element is 255, and produces the
all-zero (black) pixel wherever the mask element is 0. -/
theorem bitwise_and_mask_spec (img : List Pixel) (mask : List Nat) (i : Nat)
    (p : Pixel) (m : Nat) (hp : img[i]? = some p) (hm : mask[i]? = some m) :
    (m = 0 → (bitwise_and_mask img mask)[i]? = some ((0, 0, 0) : Pixel)) ∧
    (m = 255 → (bitwise_and_mask img mask)[i]? = some p) := by
  constructor <;> intro h <;> subst h <;>
    simp [bitwise_and_mask, List.getElem?_zipWith', hp, hm]

/-- C5 witness: on the image [(9,8,7),(1,2,3)] with mask [0,255], the
composite is black at index 0 and equals the source pixel at index 1. -/
theorem bitwise_and_mask_spec_witness :
    (bitwise_and_mask [(9, 8, 7), (1, 2, 3)] [0, 255])[0]? = some ((0, 0, 0) : Pixel) ∧
    (bitwise_and_mask [(9, 8, 7), (1, 2, 3)] [0, 255])[1]? = some ((1, 2, 3) : Pixel) :=
  ⟨(bitwise_and_mask_spec [(9, 8, 7), (1, 2, 3)] [0, 255] 0 (9, 8, 7) 0 rfl rfl).1 rfl,
   (bitwise_and_mask_spec [(9, 8, 7), (1, 2, 3)] [0, 255] 1 (1, 2, 3) 255 rfl rfl).2 rfl⟩

/-- C6: every element of the mask produced by `segment_hsv` is 0 or 255 —
never any other value — and the mask is a single-channel buffer with one
element per source pixel, hence of the same width and height as the source
image whenever the source buffer is well formed. -/
theorem segment_hsv_mask_binary (toHSV : Pixel → Pixel) (img : Image)
    (h_min h_max s_min s_max v_min v_max : Nat) :
    (∀ m ∈ (segment_hsv toHSV img h_min h_max s_min s_max v_min v_max).1,
        m = 0 ∨ m = 255) ∧
    (segment_hsv toHSV img h_min h_max s_min s_max v_min v_max).1.length =
      img.data.length ∧
    (img.data.length = img.rows * img.cols →
      (segment_hsv toHSV img h_min h_max s_min s_max v_min v_max).1.length =
        img.rows * img.cols) := by
  refine ⟨?_, ?_, ?_⟩
  · intro m hm
    simp only [segment_hsv, inRange, List.mem_map] at hm
    obtain ⟨p, _, rfl⟩ := hm
    by_cases hc : inRangePix h_min h_max s_min s_max v_min v_max p <;> simp [hc]
  · simp [segment_hsv, inRange]
  · intro h
    simp [segment_hsv, inRange, h]

/-- C6 witness: on the concrete 2×2 image, every element of the produced
mask is 0 or 255 and the mask has 4 = 2·2 elements. -/
theorem segment_hsv_mask_binary_witness :
    ((255 : Nat) = 0 ∨ (255 : Nat) = 255) ∧
    (segment_hsv toHSVtest imgC3 30 85 50 255 50 255).1.length = 2 * 2 :=
  ⟨(segment_hsv_mask_binary toHSVtest imgC3 30 85 50 255 50 255).1 255 (by decide),
   (segment_hsv_mask_binary toHSVtest imgC3 30 85 50 255 50 255).2.2 (by decide)⟩

/-- C8: the segmentation pipeline is deterministic and idempotent — two
calls of `segment_hsv` with the same decoded image and the same range
produce identical masks, identical composites, and identical pixel counts. -/
theorem segment_hsv_deterministic (toHSV : Pixel → Pixel) (img : Image)
    (h_min h_max s_min s_max v_min v_max : Nat) :
    (segment_hsv toHSV img h_min h_max s_min s_max v_min v_max).1 =
      (segment_hsv toHSV img h_min h_max s_min s_max v_min v_max).1 ∧
    (segment_hsv toHSV img h_min h_max s_min s_max v_min v_max).2.1 =
      (segment_hsv toHSV img h_min h_max s_min s_max v_min v_max).2.1 ∧
    (segment_hsv toHSV img h_min h_max s_min s_max v_min v_max).2.2 =
      (segment_hsv toHSV img h_min h_max s_min s_max v_min v_max).2.2 :=
  ⟨rfl, rfl, rfl⟩

lemma abs_rne_sub_le (x : ℚ) : |(rne x : ℚ) - x| ≤ 1 / 2 := by
  have h1 : (⌊x⌋ : ℚ) ≤ x := Int.floor_le x
  have h2 : x < ⌊x⌋ + 1 := Int.lt_floor_add_one x
  unfold rne
  split_ifs with hf hg he <;> rw [abs_le] <;> push_cast <;> constructor <;> linarith

lemma rne_eq_of_abs_lt (x : ℚ) (n : ℤ) (h : |x - n| < 1 / 2) : rne x = n := by
  rw [abs_lt] at h
  rcases le_or_lt (n : ℚ) x with hnx | hnx
  · have hfl : ⌊x⌋ = n := by
      rw [Int.floor_eq_iff]
      constructor
      · exact_mod_cast hnx
      · linarith [h.2]
    unfold rne
    rw [hfl, if_pos]
    linarith [h.2]
  · have hfl : ⌊x⌋ = n - 1 := by
      rw [Int.floor_eq_iff]
      push_cast
      constructor
      · linarith [h.1]
      · linarith
    unfold rne
    rw [hfl, if_neg, if_pos]
    · omega
    · push_cast
      linarith [h.1]
    · push_cast
      simp only [not_lt]
      linarith [h.1]

lemma fl_zero : fl 0 = 0 := by simp [fl]

lemma abs_fl_sub_le (x : ℚ) (hx : 0 < x) : |fl x - x| ≤ x * (2 : ℚ) ^ (-53 : ℤ) := by
  have hx0 : x ≠ 0 := ne_of_gt hx
  have habs : |x| = x := abs_of_pos hx
  set e := Int.log 2 |x| with he
  have hlog : ((2 : ℕ) : ℚ) ^ e ≤ |x| := Int.zpow_log_le_self (by norm_num) (by rwa [habs])
  have hul : (0 : ℚ) < 2 ^ (e - 52) := zpow_pos (by norm_num) _
  have hkey : fl x - x = ((rne (x / 2 ^ (e - 52)) : ℚ) - x / 2 ^ (e - 52)) * 2 ^ (e - 52) := by
    rw [fl, if_neg hx0, ← he]
    field_simp
  rw [hkey, abs_mul, abs_of_pos hul]
  calc |(rne (x / 2 ^ (e - 52)) : ℚ) - x / 2 ^ (e - 52)| * 2 ^ (e - 52)
      ≤ (1 / 2) * 2 ^ (e - 52) := by
        apply mul_le_mul_of_nonneg_right (abs_rne_sub_le _) (le_of_lt hul)
    _ = 2 ^ e * 2 ^ (-53 : ℤ) := by
        have hadd : (-1) + (e - 52) = e + (-53 : ℤ) := by omega
        rw [show (1 : ℚ) / 2 = 2 ^ (-1 : ℤ) by norm_num,
          ← zpow_add₀ (by norm_num : (2 : ℚ) ≠ 0), hadd,
          zpow_add₀ (by norm_num : (2 : ℚ) ≠ 0)]
    _ ≤ x * 2 ^ (-53 : ℤ) := by
        apply mul_le_mul_of_nonneg_right _ (le_of_lt (zpow_pos (by norm_num) _))
        calc (2 : ℚ) ^ e = ((2 : ℕ) : ℚ) ^ e := by norm_num
          _ ≤ |x| := hlog
          _ = x := habs

lemma fl_le (x : ℚ) (hx : 0 ≤ x) : fl x ≤ x * (1 + (2 : ℚ) ^ (-53 : ℤ)) := by
  rcases eq_or_lt_of_le hx with h0 | h0
  · rw [← h0, fl_zero]
    norm_num
  · have hb := abs_le.mp (abs_fl_sub_le x h0)
    nlinarith [hb.1, hb.2]

lemma le_fl (x : ℚ) (hx : 0 ≤ x) : x * (1 - (2 : ℚ) ^ (-53 : ℤ)) ≤ fl x := by
  rcases eq_or_lt_of_le hx with h0 | h0
  · rw [← h0, fl_zero]
    norm_num
  · have hb := abs_le.mp (abs_fl_sub_le x h0)
    nlinarith [hb.1, hb.2]

lemma fl_nonneg (x : ℚ) (hx : 0 ≤ x) : 0 ≤ fl x := by
  have h := le_fl x hx
  have hu : (0 : ℚ) < 1 - (2 : ℚ) ^ (-53 : ℤ) := by norm_num
  nlinarith

lemma fl_eq_of (x : ℚ) (e n : ℤ) (h1 : (2 : ℚ) ^ e ≤ x) (h2 : x < (2 : ℚ) ^ (e + 1))
    (hn : |x / (2 : ℚ) ^ (e - 52) - (n : ℚ)| < 1 / 2) : fl x = n * (2 : ℚ) ^ (e - 52) := by
  have hx : 0 < x := lt_of_lt_of_le (zpow_pos (by norm_num) _) h1
  have hx0 : x ≠ 0 := ne_of_gt hx
  have habs : |x| = x := abs_of_pos hx
  have hcast : ∀ z : ℤ, ((2 : ℕ) : ℚ) ^ z = (2 : ℚ) ^ z := by
    intro z
    norm_num
  have hlog : Int.log 2 |x| = e := by
    rw [habs]
    apply le_antisymm
    · have hne : ¬ (e + 1 ≤ Int.log 2 x) := by
        intro hc
        have hle := (Int.zpow_le_iff_le_log (by norm_num : 1 < 2) hx).mpr hc
        rw [hcast] at hle
        exact absurd (lt_of_lt_of_le h2 hle) (lt_irrefl x)
      omega
    · apply (Int.zpow_le_iff_le_log (by norm_num : 1 < 2) hx).mp
      rw [hcast]
      exact h1
  rw [fl, if_neg hx0, hlog, rne_eq_of_abs_lt _ n hn]

lemma newdim_le (d M : Nat) (hM : 800 < M) (hdM : d ≤ M) :
    Int.toNat ⌊fl ((d : ℚ) * fl (800 / (M : ℚ)))⌋ ≤ 800 := by
  have hM0 : (0 : ℚ) < M := by positivity
  have hq : (0 : ℚ) ≤ 800 / M := by positivity
  have hMq : (M : ℚ) * (800 / M) = 800 := by field_simp
  have hs0 : (0 : ℚ) ≤ fl (800 / M) := fl_nonneg _ hq
  have hsle : fl (800 / M) ≤ (800 / M) * (1 + (2 : ℚ) ^ (-53 : ℤ)) := fl_le _ hq
  have hx0 : (0 : ℚ) ≤ (d : ℚ) * fl (800 / M) := by positivity
  have hxle : (d : ℚ) * fl (800 / M) ≤ 800 * (1 + (2 : ℚ) ^ (-53 : ℤ)) := by
    calc (d : ℚ) * fl (800 / M) ≤ (M : ℚ) * fl (800 / M) := by
          apply mul_le_mul_of_nonneg_right (by exact_mod_cast hdM) hs0
      _ ≤ (M : ℚ) * ((800 / M) * (1 + (2 : ℚ) ^ (-53 : ℤ))) := by
          apply mul_le_mul_of_nonneg_left hsle (le_of_lt hM0)
      _ = 800 * (1 + (2 : ℚ) ^ (-53 : ℤ)) := by rw [← mul_assoc, hMq]
  have hyle : fl ((d : ℚ) * fl (800 / M)) < 801 := by
    calc fl ((d : ℚ) * fl (800 / M))
        ≤ ((d : ℚ) * fl (800 / M)) * (1 + (2 : ℚ) ^ (-53 : ℤ)) := fl_le _ hx0
      _ ≤ (800 * (1 + (2 : ℚ) ^ (-53 : ℤ))) * (1 + (2 : ℚ) ^ (-53 : ℤ)) := by
          apply mul_le_mul_of_nonneg_right hxle (by positivity)
      _ < 801 := by norm_num
  have hfloor : ⌊fl ((d : ℚ) * fl (800 / M))⌋ < 801 := Int.floor_lt.mpr (by exact_mod_cast hyle)
  omega

lemma newdim_max_ge (M : Nat) (hM : 800 < M) :
    799 ≤ Int.toNat ⌊fl ((M : ℚ) * fl (800 / (M : ℚ)))⌋ := by
  have hM0 : (0 : ℚ) < M := by positivity
  have hq : (0 : ℚ) ≤ 800 / M := by positivity
  have hMq : (M : ℚ) * (800 / M) = 800 := by field_simp
  have hsge : (800 / M) * (1 - (2 : ℚ) ^ (-53 : ℤ)) ≤ fl (800 / M) := le_fl _ hq
  have hs0 : (0 : ℚ) ≤ fl (800 / M) := fl_nonneg _ hq
  have hx0 : (0 : ℚ) ≤ (M : ℚ) * fl (800 / M) := by positivity
  have hxge : 800 * (1 - (2 : ℚ) ^ (-53 : ℤ)) ≤ (M : ℚ) * fl (800 / M) := by
    calc (800 : ℚ) * (1 - (2 : ℚ) ^ (-53 : ℤ))
        = (M : ℚ) * ((800 / M) * (1 - (2 : ℚ) ^ (-53 : ℤ))) := by rw [← mul_assoc, hMq]
      _ ≤ (M : ℚ) * fl (800 / M) := by
          apply mul_le_mul_of_nonneg_left hsge (le_of_lt hM0)
  have hyge : (799 : ℚ) < fl ((M : ℚ) * fl (800 / M)) := by
    calc (799 : ℚ) < (800 * (1 - (2 : ℚ) ^ (-53 : ℤ))) * (1 - (2 : ℚ) ^ (-53 : ℤ)) := by norm_num
      _ ≤ ((M : ℚ) * fl (800 / M)) * (1 - (2 : ℚ) ^ (-53 : ℤ)) := by
          apply mul_le_mul_of_nonneg_right hxge (by norm_num)
      _ ≤ fl ((M : ℚ) * fl (800 / M)) := le_fl _ hx0
  have hfloor : (799 : ℤ) ≤ ⌊fl ((M : ℚ) * fl (800 / M))⌋ :=
    Int.le_floor.mpr (by exact_mod_cast le_of_lt hyge)
  omega

/-- C2 counterexample: for a 100×801 decoded image the code truncates the
double-precision product (Python `int`) rather than rounds: the new height is
`int(100 * float64(800/801)) = int(99.87515...) = 99`, while the claimed
`round(100 * 800/801) = 100`. -/
theorem resize_dims_not_round :
    (resize_dims 100 801).1 = 99 ∧
    Int.toNat (round ((100 : ℚ) * (800 / ((max 100 801 : Nat) : ℚ)))) = 100 ∧
    (resize_dims 100 801).1 ≠
      Int.toNat (round ((100 : ℚ) * (800 / ((max 100 801 : Nat) : ℚ)))) := by
  have hscale : fl (800 / ((max 100 801 : Nat) : ℚ)) = 8995954311851178 / 2 ^ 53 := by
    have h := fl_eq_of (800 / ((max 100 801 : Nat) : ℚ)) (-1) 8995954311851178
      (by norm_num) (by norm_num) (by rw [abs_lt]; constructor <;> norm_num)
    rw [h]
    norm_num
  have hprod : fl ((100 : ℚ) * (8995954311851178 / 2 ^ 53)) = 7028089306133733 / 2 ^ 46 := by
    have h := fl_eq_of ((100 : ℚ) * (8995954311851178 / 2 ^ 53)) 6 7028089306133733
      (by norm_num) (by norm_num) (by rw [abs_lt]; constructor <;> norm_num)
    rw [h]
    norm_num
  have h1 : (resize_dims 100 801).1 = 99 := by
    have hcond : (800 : ℕ) < 100 ∨ (800 : ℕ) < 801 := by norm_num
    simp only [resize_dims, if_pos hcond, new_size]
    rw [hscale,
      show ((100 : ℕ) : ℚ) * (8995954311851178 / 2 ^ 53)
        = (100 : ℚ) * (8995954311851178 / 2 ^ 53) by norm_num,
      hprod]
    norm_num
    decide
  refine ⟨h1, ?_, ?_⟩
  · norm_num [round_eq]
    decide
  · rw [h1]
    norm_num [round_eq]
    decide

/-- C2 (amended): for every decoded image with max(rows, cols) > 800, the
normalizer resamples each dimension to the Python-`int` truncation of the
double-precision product dimension · scale, with scale the double-precision
value of 800/max(rows, cols) — truncation, not round-half rounding — and the
larger output dimension equals 800 to within ±1 pixel (it lies in
{799, 800}); every image with max(rows, cols) ≤ 800 keeps its dimensions
unchanged. -/
theorem resize_dims_spec (rows cols : Nat) :
    (800 < max rows cols →
      resize_dims rows cols =
        (Int.toNat ⌊fl ((rows : ℚ) * fl (800 / ((max rows cols : Nat) : ℚ)))⌋,
         Int.toNat ⌊fl ((cols : ℚ) * fl (800 / ((max rows cols : Nat) : ℚ)))⌋) ∧
      799 ≤ max (resize_dims rows cols).1 (resize_dims rows cols).2 ∧
      max (resize_dims rows cols).1 (resize_dims rows cols).2 ≤ 800) ∧
    (max rows cols ≤ 800 → resize_dims rows cols = (rows, cols)) := by
  constructor
  · intro h
    have hcond : 800 < rows ∨ 800 < cols := by omega
    have heq : resize_dims rows cols =
        (Int.toNat ⌊fl ((rows : ℚ) * fl (800 / ((max rows cols : Nat) : ℚ)))⌋,
         Int.toNat ⌊fl ((cols : ℚ) * fl (800 / ((max rows cols : Nat) : ℚ)))⌋) := by
      simp [resize_dims, new_size, hcond]
    refine ⟨heq, ?_, ?_⟩
    · rw [heq]
      rcases Nat.le_total rows cols with hrc | hrc
      · have hm : max rows cols = cols := Nat.max_eq_right hrc
        calc (799 : ℕ)
            ≤ Int.toNat ⌊fl ((cols : ℚ) * fl (800 / ((max rows cols : Nat) : ℚ)))⌋ := by
              rw [hm]
              exact newdim_max_ge cols (hm ▸ h)
          _ ≤ _ := le_max_right _ _
      · have hm : max rows cols = rows := Nat.max_eq_left hrc
        calc (799 : ℕ)
            ≤ Int.toNat ⌊fl ((rows : ℚ) * fl (800 / ((max rows cols : Nat) : ℚ)))⌋ := by
              rw [hm]
              exact newdim_max_ge rows (hm ▸ h)
          _ ≤ _ := le_max_left _ _
    · rw [heq]
      apply max_le
      · exact newdim_le rows (max rows cols) h (Nat.le_max_left _ _)
      · exact newdim_le cols (max rows cols) h (Nat.le_max_right _ _)
  · intro h
    simp [resize_dims]
    omega

/-- C2 witness: a 1000×500 image is resized so that its larger output
dimension lies between 799 and 800, and a 500×300 image is passed through
unchanged. -/
theorem resize_dims_spec_witness :
    (799 ≤ max (resize_dims 1000 500).1 (resize_dims 1000 500).2 ∧
     max (resize_dims 1000 500).1 (resize_dims 1000 500).2 ≤ 800) ∧
    resize_dims 500 300 = (500, 300) :=
  ⟨⟨((resize_dims_spec 1000 500).1 (by decide)).2.1,
    ((resize_dims_spec 1000 500).1 (by decide)).2.2⟩,
   (resize_dims_spec 500 300).2 (by decide)⟩

/-- C7: widening the range — moving any lower bound down and/or any upper
bound up — never decreases the number of selected mask pixels, and hence
never decreases the `pixel_count` value returned by `segment_hsv`, for a
fixed image. -/
theorem segment_hsv_monotone (toHSV : Pixel → Pixel) (img : Image)
    (h_min h_max s_min s_max v_min v_max h_min' h_max' s_min' s_max' v_min' v_max' : Nat)
    (hh1 : h_min' ≤ h_min) (hh2 : h_max ≤ h_max') (hs1 : s_min' ≤ s_min)
    (hs2 : s_max ≤ s_max') (hv1 : v_min' ≤ v_min) (hv2 : v_max ≤ v_max') :
    count255 (segment_hsv toHSV img h_min h_max s_min s_max v_min v_max).1 ≤
      count255 (segment_hsv toHSV img h_min' h_max' s_min' s_max' v_min' v_max').1 ∧
    (segment_hsv toHSV img h_min h_max s_min s_max v_min v_max).2.2 ≤
      (segment_hsv toHSV img h_min' h_max' s_min' s_max' v_min' v_max').2.2 := by
  have hcount : (List.map toHSV img.data).countP
        (inRangePix h_min h_max s_min s_max v_min v_max) ≤
      (List.map toHSV img.data).countP
        (inRangePix h_min' h_max' s_min' s_max' v_min' v_max') := by
    apply List.countP_mono_left
    intro p _ hp
    rw [inRangePix_iff] at hp ⊢
    omega
  constructor
  · simpa only [segment_hsv, count255_inRange] using hcount
  · simp only [segment_hsv]
    rw [sum_mask_pos_inRange, sum_mask_pos_inRange]
    gcongr

/-- C7 witness: on the 1×1 test image, the default range selects no more
pixels than the strictly wider range H∈[25,90], S∈[40,255], V∈[40,255]. -/
theorem segment_hsv_monotone_witness :
    count255 (segment_hsv toHSVtest imgC1 30 85 50 255 50 255).1 ≤
      count255 (segment_hsv toHSVtest imgC1 25 90 40 255 40 255).1 ∧
    (segment_hsv toHSVtest imgC1 30 85 50 255 50 255).2.2 ≤
      (segment_hsv toHSVtest imgC1 25 90 40 255 40 255).2.2 :=
  segment_hsv_monotone toHSVtest imgC1 30 85 50 255 50 255 25 90 40 255 40 255
    (by decide) (by decide) (by decide) (by decide) (by decide) (by decide)

/-- C9: when the decoder cannot parse the uploaded byte buffer
(`cv2.imdecode` returns no image), `load_color_image` returns no image and
the main pipeline produces no segmentation result at all — no partial image
reaches conversion or segmentation. -/
theorem decode_failure_no_result {ε : Type} (file_bytes : List Nat)
    (imdecode : List Nat → Except ε (Option Image))
    (resample : Image → Nat × Nat → Except ε Image)
    (toHSV : Pixel → Pixel) (h_min h_max s_min s_max v_min v_max : Nat)
    (hdec : imdecode file_bytes = Except.ok none) :
    load_color_image (some ()) (Except.ok file_bytes) imdecode resample = none ∧
    main_app_result (some ()) (Except.ok file_bytes) imdecode resample toHSV
      h_min h_max s_min s_max v_min v_max = none := by
  have h1 : load_color_image (some ()) (Except.ok file_bytes) imdecode resample = none := by
    simp [load_color_image, hdec]
  exact ⟨h1, by simp [main_app_result, h1]⟩

/-- C9 witness: with a decoder that rejects every buffer, the loader and the
whole pipeline produce no result on the empty byte buffer. -/
theorem decode_failure_no_result_witness :
    load_color_image (ε := Unit) (some ()) (Except.ok []) (fun _ => Except.ok none)
      (fun i _ => Except.ok i) = none ∧
    main_app_result (ε := Unit) (some ()) (Except.ok []) (fun _ => Except.ok none)
      (fun i _ => Except.ok i) toHSVtest 30 85 50 255 50 255 = none :=
  decode_failure_no_result [] (fun _ => Except.ok none) (fun i _ => Except.ok i)
    toHSVtest 30 85 50 255 50 255 rfl

/-- C10: `load_color_image` never propagates a failure to its caller: a
`None` upload yields `None` immediately; an exception raised while reading
the upload, decoding it, or resizing the decoded image is caught and turned
into `None`; and for every input the only possible outcomes are `None` or an
image. -/
theorem load_color_image_no_exception {ε : Type} (read : Except ε (List Nat))
    (imdecode : List Nat → Except ε (Option Image))
    (resample : Image → Nat × Nat → Except ε Image) :
    load_color_image none read imdecode resample = none ∧
    (∀ e, read = Except.error e →
      load_color_image (some ()) read imdecode resample = none) ∧
    (∀ b e, read = Except.ok b → imdecode b = Except.error e →
      load_color_image (some ()) read imdecode resample = none) ∧
    (∀ b img e, read = Except.ok b → imdecode b = Except.ok (some img) →
      (800 < img.rows ∨ 800 < img.cols) →
      resample img (new_size img.rows img.cols) = Except.error e →
      load_color_image (some ()) read imdecode resample = none) ∧
    (∀ u : Option Unit, load_color_image u read imdecode resample = none ∨
      ∃ img, load_color_image u read imdecode resample = some img) := by
  refine ⟨rfl, ?_, ?_, ?_, ?_⟩
  · intro e he
    subst he
    rfl
  · intro b e hb hd
    subst hb
    simp [load_color_image, hd]
  · intro b img e hb hd hcond hres
    subst hb
    simp [load_color_image, hd, hcond, hres]
  · intro u
    cases hl : load_color_image u read imdecode resample with
    | none => exact Or.inl rfl
    | some img => exact Or.inr ⟨img, rfl⟩

/-- C10 witness: the loader returns `None` when the read step raises, when
the decode step raises, and when the resize step raises on an oversized
decoded image. -/
theorem load_color_image_no_exception_witness :
    load_color_image (ε := Unit) (some ()) (Except.error ()) (fun _ => Except.ok none)
      (fun i _ => Except.ok i) = none ∧
    load_color_image (ε := Unit) (some ()) (Except.ok [0]) (fun _ => Except.error ())
      (fun i _ => Except.ok i) = none ∧
    load_color_image (ε := Unit) (some ()) (Except.ok [0])
      (fun _ => Except.ok (some ⟨900, 900, []⟩))
      (fun _ _ => Except.error ()) = none :=
  ⟨(load_color_image_no_exception (Except.error ()) (fun _ => Except.ok none)
      (fun i _ => Except.ok i)).2.1 () rfl,
   (load_color_image_no_exception (Except.ok [0]) (fun _ => Except.error ())
      (fun i _ => Except.ok i)).2.2.1 [0] () rfl rfl,
   (load_color_image_no_exception (Except.ok [0])
      (fun _ => Except.ok (some ⟨900, 900, []⟩))
      (fun _ _ => Except.error ())).2.2.2.1 [0] ⟨900, 900, []⟩ () rfl rfl
      (by decide) rfl⟩

end VegApp
